import Mathlib

/-!
Verification development for the foodgram backend (`backend/api`).

The relational state and the operations the API performs on it are shallowly
embedded: each Django model of `api/models.py` becomes a row structure, the
database becomes a `DB` record of row lists, and each view / serializer
operation of `api/views.py`, `api/serializers.py` and `api/utils.py` becomes
an executable Lean function on `DB`.  Machine integers are modelled as `Int`
or `Nat` (amounts and cooking times are small positive integers; no wrap-around
arithmetic occurs in the embedded code paths).
-/

namespace Foodgram

/-- `Ingredient` row (`api/models.py`): `id` primary key, `name`,
`measurement_unit`; `(name, measurement_unit)` unique. -/
structure IngredientRow where
  id : Nat
  name : String
  measurement_unit : String
deriving DecidableEq

/-- `User` row (the parts of the auth user the embedded code reads:
primary key and `username`). -/
structure UserRow where
  id : Nat
  username : String
deriving DecidableEq

/-- `Recipe` row (`api/models.py`): author FK, name, image, text,
`cooking_time` (positive small integer). -/
structure RecipeRow where
  id : Nat
  author : Nat
  name : String
  text : String
  image : String
  cooking_time : Int
deriving DecidableEq

/-- `RecipeIngredient` row (`api/models.py`): recipe FK (CASCADE),
ingredient FK (PROTECT), `amount` (positive small integer). -/
structure RecipeIngredientRow where
  recipe : Nat
  ingredient : Nat
  amount : Int
deriving DecidableEq

/-- A `(user, recipe)` membership row: the common shape of the `Favorite`
and `ShoppingCart` models (`api/models.py`), which are kept as two separate
tables in `DB`. -/
structure Membership where
  user : Nat
  recipe : Nat
deriving DecidableEq

/-- `Subscription` row (`api/models.py`): `user` follows `author`;
`(user, author)` unique; check constraint `prevent_self_subscription`
forbids `user = author`. -/
structure SubscriptionRow where
  user : Nat
  author : Nat
deriving DecidableEq

/-- The relational store: one list of rows per table.  `tags` keeps only the
primary keys of the tag table (the serializers reference tags solely through
`PrimaryKeyRelatedField`, i.e. by id). -/
structure DB where
  users : List UserRow
  ingredients : List IngredientRow
  tags : List Nat
  recipes : List RecipeRow
  recipeingredients : List RecipeIngredientRow
  favorites : List Membership
  shopping_carts : List Membership
  subscriptions : List SubscriptionRow
deriving DecidableEq

/-! ## Shopping list report (`api/utils.py`, `generate_shopping_list_text`) -/

/-- Python's `str.capitalize()`: first character upper-cased, the rest
lower-cased (modelled for the ASCII case range handled by `Char.toUpper` /
`Char.toLower`). -/
def pyCapitalize (s : String) : String :=
  match s.data with
  | [] => s
  | c :: rest => String.mk (c.toUpper :: rest.map Char.toLower)

/-- Python's `"\n".join(parts)`. -/
def joinNL : List String → String
  | [] => ""
  | [s] => s
  | s :: t :: rest => s ++ ("\n" ++ joinNL (t :: rest))

/-- Membership test `recipe__in_shopping_cart_set__user=user` /
`in_shopping_cart_set__user=user`: is recipe `r` in user `u`'s cart? -/
def inCart (carts : List Membership) (u r : Nat) : Bool :=
  carts.any fun c => decide (c.user = u ∧ c.recipe = r)

/-- Resolve an ingredient foreign key to the `(name, measurement_unit)` pair
the query groups by (`values('ingredient__name', 'ingredient__measurement_unit')`). -/
def ingKey (ings : List IngredientRow) (i : Nat) : Option (String × String) :=
  (ings.find? fun ing => decide (ing.id = i)).map
    fun ing => (ing.name, ing.measurement_unit)

/-- One step of the aggregation query's join: a `RecipeIngredient` row
contributes `(name, measurement_unit, amount)` when its recipe is in user
`u`'s cart and its ingredient FK resolves. -/
def joinedRow (carts : List Membership) (ings : List IngredientRow) (u : Nat)
    (ri : RecipeIngredientRow) : Option (String × String × Int) :=
  if inCart carts u ri.recipe then
    (ingKey ings ri.ingredient).map fun k => (k.1, k.2, ri.amount)
  else none

/-- The joined rows of the aggregation query: every `RecipeIngredient` row
whose recipe is in user `u`'s cart, with the ingredient FK resolved. -/
def cartRows (db : DB) (u : Nat) : List (String × String × Int) :=
  db.recipeingredients.filterMap (joinedRow db.shopping_carts db.ingredients u)

/-- Grouping key of a joined row. -/
def rowKey (r : String × String × Int) : String × String := (r.1, r.2.1)

/-- Raw (code-point lexicographic) string order, the order Python's `<` and a
binary-collated SQL `ORDER BY` use: compare the character lists. -/
def strLe (a b : String) : Prop := a.data ≤ b.data

/-- Strict raw string order. -/
def strLt (a b : String) : Prop := a.data < b.data

instance : DecidableRel strLe := fun a b => by
  unfold strLe; exact inferInstance

instance : DecidableRel strLt := fun a b => by
  unfold strLt; exact inferInstance

lemma string_data_inj {a b : String} (h : a.data = b.data) : a = b := by
  cases a
  cases b
  congr 1

/-- Order on grouping keys: `order_by('ingredient__name')` ascending, with
ties (equal names, different units — the SQL leaves their order unspecified)
broken deterministically by unit. -/
def keyLe (a b : String × String) : Prop :=
  strLt a.1 b.1 ∨ (a.1 = b.1 ∧ strLe a.2 b.2)

instance : DecidableRel keyLe := fun a b => by
  unfold keyLe; exact inferInstance

instance : IsTotal (String × String) keyLe where
  total a b := by
    rcases lt_trichotomy a.1.data b.1.data with h | h | h
    · exact Or.inl (Or.inl h)
    · rcases le_total a.2.data b.2.data with h2 | h2
      · exact Or.inl (Or.inr ⟨string_data_inj h, h2⟩)
      · exact Or.inr (Or.inr ⟨string_data_inj h.symm, h2⟩)
    · exact Or.inr (Or.inl h)

instance : IsTrans (String × String) keyLe where
  trans a b c hab hbc := by
    rcases hab with h1 | ⟨e1, l1⟩
    · rcases hbc with h2 | ⟨e2, _⟩
      · exact Or.inl (h1.trans h2)
      · exact Or.inl (e2 ▸ h1)
    · rcases hbc with h2 | ⟨e2, l2⟩
      · exact Or.inl (e1 ▸ h2)
      · exact Or.inr ⟨e1.trans e2, l1.trans l2⟩

instance : IsAntisymm (String × String) keyLe where
  antisymm a b hab hba := by
    rcases hab with h1 | ⟨e1, l1⟩
    · rcases hba with h2 | ⟨e2, _⟩
      · exact absurd (h1.trans h2) (lt_irrefl _)
      · exact absurd h1 (e2 ▸ lt_irrefl _)
    · rcases hba with h2 | ⟨_, l2⟩
      · exact absurd h2 (e1 ▸ lt_irrefl _)
      · exact Prod.ext e1 (string_data_inj (le_antisymm l1 l2))

/-- `Sum('amount')` within one group: total of the amounts of the joined rows
carrying grouping key `k`. -/
def sumAmounts (rows : List (String × String × Int)) (k : String × String) : Int :=
  ((rows.filter fun r => decide (rowKey r = k)).map fun r => r.2.2).sum

/-- `values(...).annotate(total_amount=Sum('amount')).order_by('ingredient__name')`:
one entry per distinct grouping key, carrying the summed amount, sorted. -/
def aggregateRows (rows : List (String × String × Int)) :
    List ((String × String) × Int) :=
  (List.insertionSort keyLe (rows.map rowKey).dedup).map
    fun k => (k, sumAmounts rows k)

/-- The aggregated ingredient list of user `u`'s shopping cart. -/
def aggregatedFor (db : DB) (u : Nat) : List ((String × String) × Int) :=
  aggregateRows (cartRows db u)

/-- Order for `Recipe.objects.filter(...).order_by('name')` on
`(recipe name, author username)` pairs (stable sort; ties left in table
order, which the SQL leaves unspecified). -/
def nameLe (a b : String × String) : Prop := strLe a.1 b.1

instance : DecidableRel nameLe := fun a b => by
  unfold nameLe; exact inferInstance

instance : IsTotal (String × String) nameLe where
  total a b := le_total a.1.data b.1.data

instance : IsTrans (String × String) nameLe where
  trans _ _ _ hab hbc := le_trans hab hbc

/-- The recipes of user `u`'s cart as `(name, author username)`, ordered by
recipe name (`recipes_in_cart` query of `generate_shopping_list_text`). -/
def recipesInCart (db : DB) (u : Nat) : List (String × String) :=
  List.insertionSort nameLe <|
    db.recipes.filterMap fun r =>
      if inCart db.shopping_carts u r.id then
        (db.users.find? fun us => decide (us.id = r.author)).map
          fun us => (r.name, us.username)
      else none

/-- One rendered ingredient line: `f"{i}. {name} ({unit}) — {amount}"` with
`name = item['ingredient__name'].capitalize()`. -/
def ingredientLine (i : Nat) (e : (String × String) × Int) : String :=
  toString i ++ ". " ++ pyCapitalize e.1.1 ++ " (" ++ e.1.2 ++ ") — " ++ toString e.2

/-- The `ingredient_lines` list: section title, then the aggregated entries
numbered from 1. -/
def ingredientLines (db : DB) (u : Nat) : List String :=
  "\nПродукты для покупки:" ::
    ((aggregatedFor db u).enum.map fun p => ingredientLine (p.1 + 1) p.2)

/-- One rendered recipe line: `f"{i}. {recipe.name} (автор: {recipe.author.username})"`. -/
def recipeLine (i : Nat) (e : String × String) : String :=
  toString i ++ ". " ++ e.1 ++ " (автор: " ++ e.2 ++ ")"

/-- The `recipe_lines` list (empty when no recipe is in the cart). -/
def recipeLines (db : DB) (u : Nat) : List String :=
  if (recipesInCart db u).isEmpty then []
  else
    "\nДля приготовления следующих рецептов:" ::
      ((recipesInCart db u).enum.map fun p => recipeLine (p.1 + 1) p.2)

/-- The report header, a triple-quoted f-string in the source: a literal
newline and four spaces of indentation follow the username line, then the
current date.  `now` is the already-formatted `timezone.now()` value. -/
def reportHeader (username now : String) : String :=
  "Список покупок Foodgram (" ++ username ++ ")\n    \nДата: " ++ now ++ "\n"

/-- `generate_shopping_list_text(user)` of `api/utils.py`, with the formatted
current date passed in as `now`. -/
def generate_shopping_list_text (db : DB) (u : UserRow) (now : String) : String :=
  if (aggregatedFor db u.id).isEmpty then
    reportHeader u.username now ++ "\nВаш список покупок пуст."
  else
    joinNL (reportHeader u.username now :: (ingredientLines db u.id ++ recipeLines db u.id))

/-! ## Favorite / shopping-cart toggles (`api/views.py`,
`RecipeViewSet._manage_related_object`, `favorite`, `shopping_cart`) -/

/-- HTTP method of a toggle request. -/
inductive Method where
  | post
  | delete
deriving DecidableEq

/-- `related_model.objects.filter(user=user, recipe=recipe).exists()`. -/
def memberExists (rows : List Membership) (u r : Nat) : Bool :=
  rows.any fun p => decide (p.user = u ∧ p.recipe = r)

/-- `_manage_related_object` after the recipe lookup: the existence check and
the insert / delete / 400-conflict branches, returning the HTTP status and
the updated membership table. -/
def manageRelated (rows : List Membership) (m : Method) (u r : Nat) :
    Nat × List Membership :=
  match m with
  | .post =>
      if memberExists rows u r then (400, rows)
      else (201, rows ++ [⟨u, r⟩])
  | .delete =>
      if memberExists rows u r then
        (204, rows.filter fun p => !decide (p.user = u ∧ p.recipe = r))
      else (400, rows)

/-- `get_object_or_404(Recipe, pk=pk)` succeeds? -/
def recipeExists (db : DB) (pk : Nat) : Bool :=
  db.recipes.any fun r => decide (r.id = pk)

/-- The `favorite` action (POST/DELETE `/recipes/{pk}/favorite/`). -/
def favoriteAction (db : DB) (u pk : Nat) (m : Method) : Nat × DB :=
  if recipeExists db pk then
    let res := manageRelated db.favorites m u pk
    (res.1, { db with favorites := res.2 })
  else (404, db)

/-- The `shopping_cart` action (POST/DELETE `/recipes/{pk}/shopping_cart/`). -/
def shoppingCartAction (db : DB) (u pk : Nat) (m : Method) : Nat × DB :=
  if recipeExists db pk then
    let res := manageRelated db.shopping_carts m u pk
    (res.1, { db with shopping_carts := res.2 })
  else (404, db)

/-! ## Subscription toggle (`api/views.py`, `CustomUserViewSet.subscribe`) -/

/-- `get_object_or_404(User, id=id)` succeeds? -/
def userExists (db : DB) (i : Nat) : Bool :=
  db.users.any fun us => decide (us.id = i)

/-- `Subscription.objects.filter(user=user, author=author).exists()`. -/
def subExists (db : DB) (u a : Nat) : Bool :=
  db.subscriptions.any fun s => decide (s.user = u ∧ s.author = a)

/-- The `subscribe` action: 404 on unknown author; 400 on `user == author`
(checked before the method branch); then the POST/DELETE toggle with
conflict signalling, as in the view. -/
def subscribeAction (db : DB) (u targetId : Nat) (m : Method) : Nat × DB :=
  if userExists db targetId then
    if u = targetId then (400, db)
    else
      match m with
      | .post =>
          if subExists db u targetId then (400, db)
          else (201, { db with subscriptions := db.subscriptions ++ [⟨u, targetId⟩] })
      | .delete =>
          if subExists db u targetId then
            (204, { db with subscriptions :=
              db.subscriptions.filter fun s => !decide (s.user = u ∧ s.author = targetId) })
          else (400, db)
  else (404, db)

/-- A trace of subscribe requests `(follower, target, method)` run in order. -/
def runSubscribeOps (db : DB) (ops : List (Nat × Nat × Method)) : DB :=
  ops.foldl (fun d op => (subscribeAction d op.1 op.2.1 op.2.2).2) db

/-! ## Recipe write path (`api/serializers.py`, `RecipeWriteSerializer`) -/

/-- One entry of the submitted `ingredients` list: an ingredient primary key
and an amount (`RecipeIngredientWriteSerializer`). -/
structure IngredientAmount where
  id : Nat
  amount : Int
deriving DecidableEq

/-- A request body for recipe create/update.  A `none` field was omitted from
the request (only possible on PATCH; on create DRF rejects missing required
fields). -/
structure RecipePayload where
  ingredients : Option (List IngredientAmount)
  tags : Option (List Nat)
  name : Option String
  text : Option String
  image : Option String
  cooking_time : Option Int
deriving DecidableEq

/-- `PrimaryKeyRelatedField(queryset=Ingredient.objects.all())`: the submitted
id must name an existing ingredient. -/
def ingredientIdExists (db : DB) (i : Nat) : Bool :=
  db.ingredients.any fun ing => decide (ing.id = i)

/-- `validate_ingredients` plus the per-entry `PrimaryKeyRelatedField`
resolution: non-empty, no duplicate ingredient id, every amount ≥ 1, every
id resolvable. -/
def ingredientsValid (db : DB) (l : List IngredientAmount) : Bool :=
  (!l.isEmpty)
    && decide ((l.map IngredientAmount.id).Nodup)
    && (l.all fun ia => decide (1 ≤ ia.amount))
    && (l.all fun ia => ingredientIdExists db ia.id)

/-- `validate_tags` plus `PrimaryKeyRelatedField` resolution over the tag
table. -/
def tagsValid (db : DB) (l : List Nat) : Bool :=
  (!l.isEmpty) && decide (l.Nodup) && (l.all fun t => db.tags.any fun t2 => decide (t2 = t))

/-- `validate_cooking_time` on a present value. -/
def cookingTimeValid (ct : Option Int) : Bool :=
  match ct with
  | some v => decide (1 ≤ v)
  | none => true

/-- The rows `bulk_create` inserts for a recipe from a validated ingredient
list. -/
def newRIRows (rid : Nat) (l : List IngredientAmount) : List RecipeIngredientRow :=
  l.map fun ia => ⟨rid, ia.id, ia.amount⟩

/-- POST `/recipes/`: serializer validation (`ingredients`, `tags`, `name`,
`text`, `image`, `cooking_time` all required, field validators as in the
serializer), then the `@transaction.atomic create`: insert the recipe row and
bulk-insert its line items.  On any validation failure the view answers 400
and the store is untouched.  `newId` is the primary key the storage engine
assigns to the new recipe. -/
def recipeCreateAction (db : DB) (author : Nat) (p : RecipePayload) (newId : Nat) :
    Nat × DB :=
  match p.ingredients, p.tags, p.name, p.text, p.image, p.cooking_time with
  | some ings, some tgs, some nm, some tx, some im, some ct =>
      if ingredientsValid db ings && tagsValid db tgs && decide (1 ≤ ct) then
        (201, { db with
                  recipes := db.recipes ++ [⟨newId, author, nm, tx, im, ct⟩],
                  recipeingredients := db.recipeingredients ++ newRIRows newId ings })
      else (400, db)
  | _, _, _, _, _, _ => (400, db)

/-- PATCH `/recipes/{rid}/`: 404 on unknown recipe; `validate` requires
`ingredients` and `tags` in the raw request data; field validators run on
present fields; then the `@transaction.atomic update`: delete every existing
line item of the recipe, bulk-insert the new set, and update the remaining
fields that were supplied.  Any failure answers 400 with the store
untouched. -/
def recipeUpdateAction (db : DB) (rid : Nat) (p : RecipePayload) : Nat × DB :=
  if recipeExists db rid then
    match p.ingredients, p.tags with
    | some ings, some tgs =>
        if ingredientsValid db ings && tagsValid db tgs && cookingTimeValid p.cooking_time then
          (200, { db with
                    recipes := db.recipes.map fun r =>
                      if r.id = rid then
                        { r with
                            name := p.name.getD r.name,
                            text := p.text.getD r.text,
                            image := p.image.getD r.image,
                            cooking_time := p.cooking_time.getD r.cooking_time }
                      else r,
                    recipeingredients :=
                      (db.recipeingredients.filter fun ri => !decide (ri.recipe = rid))
                        ++ newRIRows rid ings })
        else (400, db)
    | _, _ => (400, db)
  else (404, db)

/-- Reading a recipe back (`RecipeIngredientReadSerializer` over
`recipe.recipeingredients`): the recipe's line items as
`(ingredient id, amount)` pairs. -/
def readIngredientPairs (db : DB) (rid : Nat) : List (Nat × Int) :=
  (db.recipeingredients.filter fun ri => decide (ri.recipe = rid)).map
    fun ri => (ri.ingredient, ri.amount)

/-! ## Deletion semantics (`api/models.py` referential actions) -/

/-- DELETE `/recipes/{rid}/`: the recipe row goes away and, per the declared
`on_delete=CASCADE` of `RecipeIngredient.recipe`, `Favorite.recipe` and
`ShoppingCart.recipe`, so does every row referencing it. -/
def deleteRecipeAction (db : DB) (rid : Nat) : DB :=
  { db with
      recipes := db.recipes.filter fun r => !decide (r.id = rid),
      recipeingredients := db.recipeingredients.filter fun ri => !decide (ri.recipe = rid),
      favorites := db.favorites.filter fun f => !decide (f.recipe = rid),
      shopping_carts := db.shopping_carts.filter fun c => !decide (c.recipe = rid) }

/-- Deleting an ingredient: `RecipeIngredient.ingredient` declares
`on_delete=PROTECT`, so the delete is refused (result `false`, store
unchanged) while any line item references the ingredient; otherwise the row
is removed (result `true`). -/
def deleteIngredientAction (db : DB) (iid : Nat) : DB × Bool :=
  if db.recipeingredients.any fun ri => decide (ri.ingredient = iid) then
    (db, false)
  else
    ({ db with ingredients := db.ingredients.filter fun ing => !decide (ing.id = iid) }, true)

/-! ## Concrete states used by witnesses and counterexamples -/

/-- Two users; one ingredient "flour (g)"; two recipes by bob, needing
100 g and 50 g of flour; both recipes in alice's cart. -/
def dbFlour : DB :=
  { users := [⟨1, "alice"⟩, ⟨2, "bob"⟩],
    ingredients := [⟨1, "flour", "g"⟩],
    tags := [1],
    recipes := [⟨1, 2, "cake", "t", "img", 10⟩, ⟨2, 2, "bread", "t", "img", 20⟩],
    recipeingredients := [⟨1, 1, 100⟩, ⟨2, 1, 50⟩],
    favorites := [],
    shopping_carts := [⟨1, 1⟩, ⟨1, 2⟩],
    subscriptions := [] }

/-- One recipe in the cart using the ingredients "a" and "B" (same unit):
raw code-point order puts "B" before "a". -/
def dbCase : DB :=
  { users := [⟨7, "u"⟩],
    ingredients := [⟨1, "a", "u"⟩, ⟨2, "B", "u"⟩],
    tags := [],
    recipes := [⟨1, 7, "r", "t", "i", 1⟩],
    recipeingredients := [⟨1, 1, 1⟩, ⟨1, 2, 1⟩],
    favorites := [],
    shopping_carts := [⟨7, 1⟩],
    subscriptions := [] }

/-- A single user and an otherwise empty store. -/
def dbEmpty : DB :=
  { users := [⟨1, "alice"⟩],
    ingredients := [],
    tags := [],
    recipes := [],
    recipeingredients := [],
    favorites := [],
    shopping_carts := [],
    subscriptions := [] }

/-- Following the spec's words for comparison: "ordered by ingredient name,
ascending, case-normalized" — names compared after lower-casing. -/
def specCaseNormalizedLe (a b : String) : Prop :=
  a.data.map Char.toLower ≤ b.data.map Char.toLower

instance : DecidableRel specCaseNormalizedLe := fun a b => by
  unfold specCaseNormalizedLe; exact inferInstance

/-! ## Lemmas about the aggregation -/

lemma aggregateRows_map_fst (rows : List (String × String × Int)) :
    (aggregateRows rows).map Prod.fst
      = List.insertionSort keyLe (rows.map rowKey).dedup := by
  simp only [aggregateRows, List.map_map]
  have : (Prod.fst ∘ fun k : String × String => (k, sumAmounts rows k)) = id := rfl
  rw [this, List.map_id]

lemma aggregateRows_keys_nodup (rows : List (String × String × Int)) :
    ((aggregateRows rows).map Prod.fst).Nodup := by
  rw [aggregateRows_map_fst]
  exact ((List.perm_insertionSort keyLe _).nodup_iff).mpr (List.nodup_dedup _)

lemma aggregateRows_mem_keys (rows : List (String × String × Int))
    (k : String × String) :
    k ∈ (aggregateRows rows).map Prod.fst ↔ k ∈ rows.map rowKey := by
  rw [aggregateRows_map_fst, (List.perm_insertionSort keyLe _).mem_iff]
  exact List.mem_dedup

lemma aggregateRows_val (rows : List (String × String × Int))
    (e : (String × String) × Int) (he : e ∈ aggregateRows rows) :
    e.2 = sumAmounts rows e.1 := by
  simp only [aggregateRows, List.mem_map] at he
  obtain ⟨k, _, rfl⟩ := he
  rfl

lemma sumAmounts_perm {rows rows' : List (String × String × Int)}
    (h : rows.Perm rows') (k : String × String) :
    sumAmounts rows k = sumAmounts rows' k :=
  ((h.filter _).map _).sum_eq

lemma aggregateRows_perm {rows rows' : List (String × String × Int)}
    (h : rows.Perm rows') :
    aggregateRows rows = aggregateRows rows' := by
  have hkeys : List.insertionSort keyLe (rows.map rowKey).dedup
      = List.insertionSort keyLe (rows'.map rowKey).dedup := by
    refine List.eq_of_perm_of_sorted ?_ (List.sorted_insertionSort keyLe _)
      (List.sorted_insertionSort keyLe _)
    exact (List.perm_insertionSort keyLe _).trans
      (((h.map rowKey).dedup).trans (List.perm_insertionSort keyLe _).symm)
  unfold aggregateRows
  rw [hkeys]
  exact List.map_congr_left fun k _ => by rw [sumAmounts_perm h]

lemma aggregateRows_eq_nil_iff (rows : List (String × String × Int)) :
    aggregateRows rows = [] ↔ rows = [] := by
  constructor
  · intro h
    unfold aggregateRows at h
    rw [List.map_eq_nil_iff] at h
    have hd : (rows.map rowKey).dedup.Perm ([] : List (String × String)) := by
      rw [← h]
      exact (List.perm_insertionSort keyLe _).symm
    have : (rows.map rowKey).dedup = [] := hd.eq_nil
    rw [List.dedup_eq_nil, List.map_eq_nil_iff] at this
    exact this
  · intro h
    subst h
    rfl

/-! ## Lemmas about the join -/

lemma inCart_perm {carts carts' : List Membership} (h : carts.Perm carts')
    (u r : Nat) : inCart carts u r = inCart carts' u r := by
  unfold inCart
  rcases hc : carts.any fun c => decide (c.user = u ∧ c.recipe = r) with _ | _
  · rcases hc' : carts'.any fun c => decide (c.user = u ∧ c.recipe = r) with _ | _
    · rfl
    · rw [List.any_eq_true] at hc'
      obtain ⟨c, hmem, hp⟩ := hc'
      have : carts.any (fun c => decide (c.user = u ∧ c.recipe = r)) = true :=
        List.any_eq_true.mpr ⟨c, h.mem_iff.mpr hmem, hp⟩
      rw [hc] at this
      exact absurd this (by simp)
  · rw [List.any_eq_true] at hc
    obtain ⟨c, hmem, hp⟩ := hc
    exact (List.any_eq_true.mpr ⟨c, h.mem_iff.mp hmem, hp⟩).symm

lemma joinedRow_perm {carts carts' : List Membership} (h : carts.Perm carts')
    (ings : List IngredientRow) (u : Nat) (ri : RecipeIngredientRow) :
    joinedRow carts ings u ri = joinedRow carts' ings u ri := by
  unfold joinedRow
  rw [inCart_perm h]

lemma cartRows_mem_keys (db : DB) (u : Nat) (k : String × String) :
    k ∈ (cartRows db u).map rowKey
      ↔ ∃ ri ∈ db.recipeingredients,
          inCart db.shopping_carts u ri.recipe = true
            ∧ ingKey db.ingredients ri.ingredient = some k := by
  simp only [cartRows, List.mem_map, List.mem_filterMap, joinedRow]
  constructor
  · rintro ⟨row, ⟨ri, hmem, hjoin⟩, hkey⟩
    by_cases hic : inCart db.shopping_carts u ri.recipe
    · rw [if_pos hic] at hjoin
      rcases hk : ingKey db.ingredients ri.ingredient with _ | kk
      · rw [hk] at hjoin; exact absurd hjoin (by simp)
      · rw [hk, Option.map_some'] at hjoin
        replace hjoin := Option.some.inj hjoin
        refine ⟨ri, hmem, hic, ?_⟩
        rw [hk]
        subst hkey
        rw [← hjoin]
        rfl
    · rw [if_neg hic] at hjoin
      exact absurd hjoin (by simp)
  · rintro ⟨ri, hmem, hic, hk⟩
    refine ⟨(k.1, k.2, ri.amount), ⟨ri, hmem, ?_⟩, rfl⟩
    rw [if_pos hic, hk]
    rfl

lemma filtered_amounts_eq (carts : List Membership) (ings : List IngredientRow)
    (u : Nat) (k : String × String) (l : List RecipeIngredientRow) :
    ((List.filterMap (joinedRow carts ings u) l).filter
        (fun r => decide (rowKey r = k))).map (fun r => r.2.2)
      = (l.filter fun ri =>
          inCart carts u ri.recipe && decide (ingKey ings ri.ingredient = some k)).map
        RecipeIngredientRow.amount := by
  induction l with
  | nil => rfl
  | cons ri t ih =>
      by_cases hic : inCart carts u ri.recipe
      · rcases hk : ingKey ings ri.ingredient with _ | kk
        · have hj : joinedRow carts ings u ri = none := by
            unfold joinedRow; rw [if_pos hic, hk]; rfl
          rw [List.filterMap_cons_none hj, List.filter_cons_of_neg (by simp [hic, hk]),
            ih]
        · have hj : joinedRow carts ings u ri = some (kk.1, kk.2, ri.amount) := by
            unfold joinedRow; rw [if_pos hic, hk]; rfl
          rw [List.filterMap_cons_some hj]
          by_cases hkk : kk = k
          · subst hkk
            rw [List.filter_cons_of_pos (by simp [rowKey]),
              List.filter_cons_of_pos (by simp [hic, hk]), List.map_cons, List.map_cons,
              ih]
          · rw [List.filter_cons_of_neg (by simp [rowKey, hkk]),
              List.filter_cons_of_neg (by simp [hic, hk, hkk]), ih]
      · have hj : joinedRow carts ings u ri = none := by
          unfold joinedRow; rw [if_neg hic]
        rw [List.filterMap_cons_none hj, List.filter_cons_of_neg (by simp [hic]), ih]

lemma sumAmounts_cartRows (db : DB) (u : Nat) (k : String × String) :
    sumAmounts (cartRows db u) k
      = ((db.recipeingredients.filter fun ri =>
            inCart db.shopping_carts u ri.recipe
              && decide (ingKey db.ingredients ri.ingredient = some k)).map
          RecipeIngredientRow.amount).sum := by
  unfold sumAmounts cartRows
  rw [filtered_amounts_eq]

/-! ## The report depends only on the row sets, not their storage order -/

lemma cartRows_rowPerm (db : DB) (u : Nat) {carts' : List Membership}
    {ri' : List RecipeIngredientRow}
    (hc : db.shopping_carts.Perm carts') (hr : db.recipeingredients.Perm ri') :
    (cartRows { db with shopping_carts := carts', recipeingredients := ri' } u).Perm
      (cartRows db u) := by
  unfold cartRows
  have h1 : ri'.filterMap (joinedRow carts' db.ingredients u)
      = ri'.filterMap (joinedRow db.shopping_carts db.ingredients u) :=
    List.filterMap_congr fun ri _ => (joinedRow_perm hc db.ingredients u ri).symm
  exact h1 ▸ (hr.symm.filterMap _)

lemma aggregatedFor_rowPerm (db : DB) (u : Nat) {carts' : List Membership}
    {ri' : List RecipeIngredientRow}
    (hc : db.shopping_carts.Perm carts') (hr : db.recipeingredients.Perm ri') :
    aggregatedFor { db with shopping_carts := carts', recipeingredients := ri' } u
      = aggregatedFor db u :=
  aggregateRows_perm (cartRows_rowPerm db u hc hr)

lemma recipesInCart_rowPerm (db : DB) (u : Nat) (carts' : List Membership)
    (ri' : List RecipeIngredientRow)
    (hc : db.shopping_carts.Perm carts') :
    recipesInCart { db with shopping_carts := carts', recipeingredients := ri' } u
      = recipesInCart db u := by
  unfold recipesInCart
  congr 1
  refine List.filterMap_congr fun r _ => ?_
  rw [inCart_perm hc.symm]

lemma ingredientLines_rowPerm (db : DB) (u : Nat) {carts' : List Membership}
    {ri' : List RecipeIngredientRow}
    (hc : db.shopping_carts.Perm carts') (hr : db.recipeingredients.Perm ri') :
    ingredientLines { db with shopping_carts := carts', recipeingredients := ri' } u
      = ingredientLines db u := by
  unfold ingredientLines
  rw [aggregatedFor_rowPerm db u hc hr]

lemma recipeLines_rowPerm (db : DB) (u : Nat) (carts' : List Membership)
    (ri' : List RecipeIngredientRow)
    (hc : db.shopping_carts.Perm carts') :
    recipeLines { db with shopping_carts := carts', recipeingredients := ri' } u
      = recipeLines db u := by
  unfold recipeLines
  rw [recipesInCart_rowPerm db u carts' ri' hc]

lemma generate_rowPerm (db : DB) (u : UserRow) (now : String)
    {carts' : List Membership} {ri' : List RecipeIngredientRow}
    (hc : db.shopping_carts.Perm carts') (hr : db.recipeingredients.Perm ri') :
    generate_shopping_list_text
        { db with shopping_carts := carts', recipeingredients := ri' } u now
      = generate_shopping_list_text db u now := by
  unfold generate_shopping_list_text
  rw [aggregatedFor_rowPerm db u.id hc hr, ingredientLines_rowPerm db u.id hc hr,
    recipeLines_rowPerm db u.id carts' ri' hc]

/-! ## Shape of the rendered text -/

lemma string_append_left_cancel {a b c : String} (h : a ++ b = a ++ c) : b = c := by
  have hd := congrArg String.data h
  rw [String.data_append, String.data_append] at hd
  exact string_data_inj (List.append_cancel_left hd)

lemma joinNL_cons (s : String) (rest : List String) :
    ∃ t, joinNL (s :: rest) = s ++ t := by
  cases rest with
  | nil => exact ⟨"", by simp [joinNL]⟩
  | cons t r => exact ⟨"\n" ++ joinNL (t :: r), rfl⟩

lemma cartRows_eq_nil_iff (db : DB) (u : Nat)
    (hfk : ∀ ri ∈ db.recipeingredients, (ingKey db.ingredients ri.ingredient).isSome) :
    cartRows db u = []
      ↔ ∀ ri ∈ db.recipeingredients, inCart db.shopping_carts u ri.recipe = false := by
  unfold cartRows
  rw [List.filterMap_eq_nil_iff]
  constructor
  · intro h ri hmem
    have := h ri hmem
    unfold joinedRow at this
    by_cases hic : inCart db.shopping_carts u ri.recipe
    · rw [if_pos hic] at this
      rcases hk : ingKey db.ingredients ri.ingredient with _ | kk
      · have := hfk ri hmem
        rw [hk] at this
        exact absurd this (by simp)
      · rw [hk] at this
        exact absurd this (by simp)
    · simpa using hic
  · intro h ri hmem
    unfold joinedRow
    rw [h ri hmem]
    simp

lemma noCartRows_of_emptyCart (db : DB) (u : Nat)
    (h : ∀ c ∈ db.shopping_carts, c.user ≠ u) : cartRows db u = [] := by
  unfold cartRows
  rw [List.filterMap_eq_nil_iff]
  intro ri _
  unfold joinedRow
  have hic : inCart db.shopping_carts u ri.recipe = false := by
    unfold inCart
    rw [List.any_eq_false]
    intro c hc
    simp only [decide_eq_true_eq, not_and]
    intro hu
    exact absurd hu (h c hc)
  rw [hic]
  simp

/-- The non-empty branch of the report can never coincide with the
empty-cart message: right after the header the two texts read
"\nПродукты для покупки:" and "Ваш список покупок пуст." respectively. -/
lemma nonempty_report_ne_empty_form (db : DB) (u : UserRow) (now : String) :
    joinNL (reportHeader u.username now :: (ingredientLines db u.id ++ recipeLines db u.id))
      ≠ reportHeader u.username now ++ "\nВаш список покупок пуст." := by
  intro h
  have hshape : (ingredientLines db u.id ++ recipeLines db u.id)
      = "\nПродукты для покупки:" ::
          (((aggregatedFor db u.id).enum.map fun p => ingredientLine (p.1 + 1) p.2)
            ++ recipeLines db u.id) := by
    unfold ingredientLines
    simp
  rw [hshape] at h
  rw [show joinNL (reportHeader u.username now :: "\nПродукты для покупки:" ::
      (((aggregatedFor db u.id).enum.map fun p => ingredientLine (p.1 + 1) p.2)
        ++ recipeLines db u.id))
    = reportHeader u.username now ++ ("\n" ++ joinNL ("\nПродукты для покупки:" ::
      (((aggregatedFor db u.id).enum.map fun p => ingredientLine (p.1 + 1) p.2)
        ++ recipeLines db u.id))) from rfl] at h
  have h2 := string_append_left_cancel h
  rw [show ("\nВаш список покупок пуст." : String)
      = "\n" ++ "Ваш список покупок пуст." from by decide] at h2
  have h3 := string_append_left_cancel h2
  obtain ⟨t, ht⟩ := joinNL_cons "\nПродукты для покупки:"
    (((aggregatedFor db u.id).enum.map fun p => ingredientLine (p.1 + 1) p.2)
      ++ recipeLines db u.id)
  rw [ht] at h3
  have hd := congrArg String.data h3
  rw [String.data_append] at hd
  rw [show ("\nПродукты для покупки:" : String).data
      = '\n' :: ("Продукты для покупки:" : String).data from by decide] at hd
  have hh := congrArg List.head? hd
  rw [List.cons_append, List.head?_cons] at hh
  rw [show (("Ваш список покупок пуст." : String).data).head? = some 'В' from by decide] at hh
  exact absurd (Option.some.inj hh) (by decide)

/-! ## Lemmas about the membership toggles -/

lemma manageRelated_post_mem (rows : List Membership) (u r : Nat)
    (h : memberExists rows u r = true) :
    manageRelated rows .post u r = (400, rows) := by
  simp [manageRelated, h]

lemma manageRelated_post_notmem (rows : List Membership) (u r : Nat)
    (h : memberExists rows u r = false) :
    manageRelated rows .post u r = (201, rows ++ [⟨u, r⟩]) := by
  simp [manageRelated, h]

lemma manageRelated_delete_mem (rows : List Membership) (u r : Nat)
    (h : memberExists rows u r = true) :
    manageRelated rows .delete u r
      = (204, rows.filter fun p => !decide (p.user = u ∧ p.recipe = r)) := by
  simp [manageRelated, h]

lemma manageRelated_delete_notmem (rows : List Membership) (u r : Nat)
    (h : memberExists rows u r = false) :
    manageRelated rows .delete u r = (400, rows) := by
  simp [manageRelated, h]

lemma memberExists_append_self (rows : List Membership) (u r : Nat) :
    memberExists (rows ++ [⟨u, r⟩]) u r = true := by
  simp [memberExists]

lemma memberExists_filter_self (rows : List Membership) (u r : Nat) :
    memberExists (rows.filter fun p => !decide (p.user = u ∧ p.recipe = r)) u r
      = false := by
  rw [memberExists, List.any_eq_false]
  intro p hp
  rw [List.mem_filter] at hp
  have h2 := hp.2
  simp only [Bool.not_eq_true', decide_eq_false_iff_not] at h2
  simpa using h2

/-! ## Lemmas about the subscription toggle -/

lemma subscribeAction_self (db : DB) (u : Nat) (m : Method)
    (hu : userExists db u = true) :
    subscribeAction db u u m = (400, db) := by
  unfold subscribeAction
  rw [if_pos hu, if_pos rfl]

lemma subscribeAction_noSelf (db : DB) (a b : Nat) (m : Method)
    (hinv : ∀ s ∈ db.subscriptions, s.user ≠ s.author) :
    ∀ s ∈ ((subscribeAction db a b m).2).subscriptions, s.user ≠ s.author := by
  intro s hs
  unfold subscribeAction at hs
  split at hs
  · split at hs
    · exact hinv s hs
    · rename_i hab
      split at hs
      · split at hs
        · exact hinv s hs
        · rcases List.mem_append.mp hs with hold | hnew
          · exact hinv s hold
          · rw [List.mem_singleton] at hnew
            subst hnew
            exact hab
      · split at hs
        · exact hinv s (List.mem_of_mem_filter hs)
        · exact hinv s hs
  · exact hinv s hs

lemma runSubscribeOps_noSelf (ops : List (Nat × Nat × Method)) (db : DB)
    (hinv : ∀ s ∈ db.subscriptions, s.user ≠ s.author) :
    ∀ s ∈ (runSubscribeOps db ops).subscriptions, s.user ≠ s.author := by
  induction ops generalizing db with
  | nil => exact hinv
  | cons op rest ih =>
      exact ih _ (subscribeAction_noSelf db op.1 op.2.1 op.2.2 hinv)

/-! ## Lemmas about recipe-payload validation -/

lemma ingredientsValid_spec {db : DB} {l : List IngredientAmount}
    (h : ingredientsValid db l = true) :
    l ≠ [] ∧ (l.map IngredientAmount.id).Nodup
      ∧ (∀ ia ∈ l, 1 ≤ ia.amount)
      ∧ (∀ ia ∈ l, ingredientIdExists db ia.id = true) := by
  unfold ingredientsValid at h
  rw [Bool.and_eq_true, Bool.and_eq_true, Bool.and_eq_true] at h
  obtain ⟨⟨⟨hne, hnd⟩, hamt⟩, hex⟩ := h
  refine ⟨?_, of_decide_eq_true hnd, ?_, ?_⟩
  · intro hnil
    subst hnil
    simp at hne
  · intro ia hia
    exact of_decide_eq_true (List.all_eq_true.mp hamt ia hia)
  · intro ia hia
    exact List.all_eq_true.mp hex ia hia

lemma ingredientsValid_false_of_bad {db : DB} {l : List IngredientAmount}
    (h : l = [] ∨ ¬ (l.map IngredientAmount.id).Nodup ∨ ∃ ia ∈ l, ia.amount < 1) :
    ingredientsValid db l = false := by
  rcases hv : ingredientsValid db l with _ | _
  · rfl
  · obtain ⟨hne, hnd, hamt, _⟩ := ingredientsValid_spec hv
    rcases h with h | h | ⟨ia, hia, hlt⟩
    · exact absurd h hne
    · exact absurd hnd h
    · exact absurd (hamt ia hia) (by omega)

/-! ## Claim theorems -/

/-- Claim C10: deleting a recipe cascades — afterwards no line item, favorite
or cart row references it, while rows of other recipes survive — and deleting
an ingredient still referenced by some line item is refused with the store
unchanged (`on_delete=PROTECT`). -/
theorem C10_delete_cascade_and_protect (db : DB) (rid iid : Nat)
    (href : (db.recipeingredients.any fun ri => decide (ri.ingredient = iid)) = true) :
    (∀ ri ∈ (deleteRecipeAction db rid).recipeingredients, ri.recipe ≠ rid)
    ∧ (∀ f ∈ (deleteRecipeAction db rid).favorites, f.recipe ≠ rid)
    ∧ (∀ c ∈ (deleteRecipeAction db rid).shopping_carts, c.recipe ≠ rid)
    ∧ (∀ r ∈ (deleteRecipeAction db rid).recipes, r.id ≠ rid)
    ∧ (∀ ri ∈ db.recipeingredients, ri.recipe ≠ rid →
        ri ∈ (deleteRecipeAction db rid).recipeingredients)
    ∧ (∀ f ∈ db.favorites, f.recipe ≠ rid → f ∈ (deleteRecipeAction db rid).favorites)
    ∧ (∀ c ∈ db.shopping_carts, c.recipe ≠ rid →
        c ∈ (deleteRecipeAction db rid).shopping_carts)
    ∧ deleteIngredientAction db iid = (db, false) := by
  refine ⟨?_, ?_, ?_, ?_, ?_, ?_, ?_, ?_⟩
  · intro ri hri
    have := (List.mem_filter.mp hri).2
    simpa using this
  · intro f hf
    have := (List.mem_filter.mp hf).2
    simpa using this
  · intro c hc
    have := (List.mem_filter.mp hc).2
    simpa using this
  · intro r hr
    have := (List.mem_filter.mp hr).2
    simpa using this
  · intro ri hri hne
    exact List.mem_filter.mpr ⟨hri, by simpa using hne⟩
  · intro f hf hne
    exact List.mem_filter.mpr ⟨hf, by simpa using hne⟩
  · intro c hc hne
    exact List.mem_filter.mpr ⟨hc, by simpa using hne⟩
  · unfold deleteIngredientAction
    rw [if_pos href]

/-- Witness for C10 at a concrete state: flour is referenced by line items,
so its deletion is refused; recipe 1 is deleted with its cascade. -/
theorem C10_witness :
    (dbFlour.recipeingredients.any fun ri => decide (ri.ingredient = 1)) = true
    ∧ ((∀ ri ∈ (deleteRecipeAction dbFlour 1).recipeingredients, ri.recipe ≠ 1)
        ∧ (∀ f ∈ (deleteRecipeAction dbFlour 1).favorites, f.recipe ≠ 1)
        ∧ (∀ c ∈ (deleteRecipeAction dbFlour 1).shopping_carts, c.recipe ≠ 1)
        ∧ (∀ r ∈ (deleteRecipeAction dbFlour 1).recipes, r.id ≠ 1)
        ∧ (∀ ri ∈ dbFlour.recipeingredients, ri.recipe ≠ 1 →
            ri ∈ (deleteRecipeAction dbFlour 1).recipeingredients)
        ∧ (∀ f ∈ dbFlour.favorites, f.recipe ≠ 1 →
            f ∈ (deleteRecipeAction dbFlour 1).favorites)
        ∧ (∀ c ∈ dbFlour.shopping_carts, c.recipe ≠ 1 →
            c ∈ (deleteRecipeAction dbFlour 1).shopping_carts)
        ∧ deleteIngredientAction dbFlour 1 = (dbFlour, false)) :=
  ⟨by decide, C10_delete_cascade_and_protect dbFlour 1 1 (by decide)⟩

/-- Claim C6: a self-subscribe POST by an existing user always answers 400
and changes nothing, and the no-self-edge invariant (the application check
together with the `prevent_self_subscription` check constraint) is preserved
by every sequence of subscribe requests. -/
theorem C6_no_self_subscription (db : DB) (u : Nat) (ops : List (Nat × Nat × Method))
    (hu : userExists db u = true)
    (hinv : ∀ s ∈ db.subscriptions, s.user ≠ s.author) :
    subscribeAction db u u .post = (400, db)
    ∧ ∀ s ∈ (runSubscribeOps db ops).subscriptions, s.user ≠ s.author :=
  ⟨subscribeAction_self db u .post hu, runSubscribeOps_noSelf ops db hinv⟩

/-- Witness for C6 at a concrete state and request trace (including an
attempted self-subscription). -/
theorem C6_witness :
    (userExists dbFlour 1 = true ∧ ∀ s ∈ dbFlour.subscriptions, s.user ≠ s.author)
    ∧ (subscribeAction dbFlour 1 1 .post = (400, dbFlour)
        ∧ ∀ s ∈ (runSubscribeOps dbFlour
            [(1, 2, .post), (1, 1, .post), (2, 1, .post), (1, 2, .delete)]).subscriptions,
          s.user ≠ s.author) :=
  ⟨⟨by decide, by decide⟩,
    C6_no_self_subscription dbFlour 1
      [(1, 2, .post), (1, 1, .post), (2, 1, .post), (1, 2, .delete)]
      (by decide) (by decide)⟩

lemma favoriteAction_unfold (db : DB) (u pk : Nat) (m : Method)
    (hex : recipeExists db pk = true) :
    favoriteAction db u pk m
      = ((manageRelated db.favorites m u pk).1,
          { db with favorites := (manageRelated db.favorites m u pk).2 }) := by
  unfold favoriteAction
  rw [if_pos hex]

lemma shoppingCartAction_unfold (db : DB) (u pk : Nat) (m : Method)
    (hex : recipeExists db pk = true) :
    shoppingCartAction db u pk m
      = ((manageRelated db.shopping_carts m u pk).1,
          { db with shopping_carts := (manageRelated db.shopping_carts m u pk).2 }) := by
  unfold shoppingCartAction
  rw [if_pos hex]

/-- Claim C2: for an existing recipe, the favorite and shopping-cart toggles
succeed exactly when they change membership — POST answers 201 iff the
membership was absent and creates it, otherwise 400 with the store unchanged;
DELETE answers 204 iff the membership was present and removes it, otherwise
400 with the store unchanged — and so (POST, POST) from a non-member state
yields 201 then 400, and (POST, DELETE, DELETE) yields 201, 204, then 400. -/
theorem C2_toggle_conflict_semantics (db : DB) (u pk : Nat)
    (hex : recipeExists db pk = true) :
    ((favoriteAction db u pk .post).1 = 201 ↔ memberExists db.favorites u pk = false)
    ∧ (memberExists db.favorites u pk = true → favoriteAction db u pk .post = (400, db))
    ∧ (memberExists db.favorites u pk = false →
        memberExists ((favoriteAction db u pk .post).2).favorites u pk = true)
    ∧ ((favoriteAction db u pk .delete).1 = 204 ↔ memberExists db.favorites u pk = true)
    ∧ (memberExists db.favorites u pk = false → favoriteAction db u pk .delete = (400, db))
    ∧ (memberExists db.favorites u pk = true →
        memberExists ((favoriteAction db u pk .delete).2).favorites u pk = false)
    ∧ ((shoppingCartAction db u pk .post).1 = 201
        ↔ memberExists db.shopping_carts u pk = false)
    ∧ (memberExists db.shopping_carts u pk = true →
        shoppingCartAction db u pk .post = (400, db))
    ∧ (memberExists db.shopping_carts u pk = false →
        memberExists ((shoppingCartAction db u pk .post).2).shopping_carts u pk = true)
    ∧ ((shoppingCartAction db u pk .delete).1 = 204
        ↔ memberExists db.shopping_carts u pk = true)
    ∧ (memberExists db.shopping_carts u pk = false →
        shoppingCartAction db u pk .delete = (400, db))
    ∧ (memberExists db.shopping_carts u pk = true →
        memberExists ((shoppingCartAction db u pk .delete).2).shopping_carts u pk = false)
    ∧ (memberExists db.favorites u pk = false →
        (favoriteAction db u pk .post).1 = 201
        ∧ (favoriteAction (favoriteAction db u pk .post).2 u pk .post).1 = 400
        ∧ (favoriteAction (favoriteAction db u pk .post).2 u pk .delete).1 = 204
        ∧ (favoriteAction
            (favoriteAction (favoriteAction db u pk .post).2 u pk .delete).2 u pk
            .delete).1 = 400)
    ∧ (memberExists db.shopping_carts u pk = false →
        (shoppingCartAction db u pk .post).1 = 201
        ∧ (shoppingCartAction (shoppingCartAction db u pk .post).2 u pk .post).1 = 400
        ∧ (shoppingCartAction (shoppingCartAction db u pk .post).2 u pk .delete).1 = 204
        ∧ (shoppingCartAction
            (shoppingCartAction (shoppingCartAction db u pk .post).2 u pk .delete).2 u pk
            .delete).1 = 400) := by
  refine ⟨?_, ?_, ?_, ?_, ?_, ?_, ?_, ?_, ?_, ?_, ?_, ?_, ?_, ?_⟩
  · rw [favoriteAction_unfold db u pk .post hex]
    rcases hm : memberExists db.favorites u pk with _ | _
    · rw [manageRelated_post_notmem _ _ _ hm]
      simp
    · rw [manageRelated_post_mem _ _ _ hm]
      simp
  · intro hm
    rw [favoriteAction_unfold db u pk .post hex, manageRelated_post_mem _ _ _ hm]
  · intro hm
    rw [favoriteAction_unfold db u pk .post hex, manageRelated_post_notmem _ _ _ hm]
    exact memberExists_append_self db.favorites u pk
  · rw [favoriteAction_unfold db u pk .delete hex]
    rcases hm : memberExists db.favorites u pk with _ | _
    · rw [manageRelated_delete_notmem _ _ _ hm]
      simp
    · rw [manageRelated_delete_mem _ _ _ hm]
      simp
  · intro hm
    rw [favoriteAction_unfold db u pk .delete hex, manageRelated_delete_notmem _ _ _ hm]
  · intro hm
    rw [favoriteAction_unfold db u pk .delete hex, manageRelated_delete_mem _ _ _ hm]
    exact memberExists_filter_self db.favorites u pk
  · rw [shoppingCartAction_unfold db u pk .post hex]
    rcases hm : memberExists db.shopping_carts u pk with _ | _
    · rw [manageRelated_post_notmem _ _ _ hm]
      simp
    · rw [manageRelated_post_mem _ _ _ hm]
      simp
  · intro hm
    rw [shoppingCartAction_unfold db u pk .post hex, manageRelated_post_mem _ _ _ hm]
  · intro hm
    rw [shoppingCartAction_unfold db u pk .post hex, manageRelated_post_notmem _ _ _ hm]
    exact memberExists_append_self db.shopping_carts u pk
  · rw [shoppingCartAction_unfold db u pk .delete hex]
    rcases hm : memberExists db.shopping_carts u pk with _ | _
    · rw [manageRelated_delete_notmem _ _ _ hm]
      simp
    · rw [manageRelated_delete_mem _ _ _ hm]
      simp
  · intro hm
    rw [shoppingCartAction_unfold db u pk .delete hex, manageRelated_delete_notmem _ _ _ hm]
  · intro hm
    rw [shoppingCartAction_unfold db u pk .delete hex, manageRelated_delete_mem _ _ _ hm]
    exact memberExists_filter_self db.shopping_carts u pk
  · intro hm
    have hex1 : recipeExists { db with favorites := db.favorites ++ [⟨u, pk⟩] } pk
        = true := hex
    have e1 : favoriteAction db u pk .post
        = (201, { db with favorites := db.favorites ++ [⟨u, pk⟩] }) := by
      rw [favoriteAction_unfold db u pk .post hex, manageRelated_post_notmem _ _ _ hm]
    have e2 : favoriteAction { db with favorites := db.favorites ++ [⟨u, pk⟩] } u pk .delete
        = (204, { db with favorites := ((db.favorites ++ [Membership.mk u pk]).filter (fun p => !decide (p.user = u ∧ p.recipe = pk))) }) := by
      rw [favoriteAction_unfold _ u pk .delete hex1,
        manageRelated_delete_mem _ _ _ (memberExists_append_self db.favorites u pk)]
    have hex2 : recipeExists { db with favorites := ((db.favorites ++ [Membership.mk u pk]).filter (fun p => !decide (p.user = u ∧ p.recipe = pk))) } pk = true := hex
    refine ⟨by rw [e1], ?_, ?_, ?_⟩
    · rw [e1]
      dsimp only
      rw [favoriteAction_unfold _ u pk .post hex1,
        manageRelated_post_mem _ _ _ (memberExists_append_self db.favorites u pk)]
    · rw [e1]
      dsimp only
      rw [e2]
    · rw [e1]
      dsimp only
      rw [e2]
      dsimp only
      rw [favoriteAction_unfold _ u pk .delete hex2,
        manageRelated_delete_notmem _ _ _ (memberExists_filter_self _ u pk)]
  · intro hm
    have hex1 : recipeExists { db with shopping_carts := db.shopping_carts ++ [⟨u, pk⟩] } pk
        = true := hex
    have e1 : shoppingCartAction db u pk .post
        = (201, { db with shopping_carts := db.shopping_carts ++ [⟨u, pk⟩] }) := by
      rw [shoppingCartAction_unfold db u pk .post hex, manageRelated_post_notmem _ _ _ hm]
    have e2 : shoppingCartAction { db with shopping_carts := db.shopping_carts ++ [⟨u, pk⟩] }
        u pk .delete
        = (204, { db with shopping_carts := ((db.shopping_carts ++ [Membership.mk u pk]).filter (fun p => !decide (p.user = u ∧ p.recipe = pk))) }) := by
      rw [shoppingCartAction_unfold _ u pk .delete hex1,
        manageRelated_delete_mem _ _ _ (memberExists_append_self db.shopping_carts u pk)]
    have hex2 : recipeExists { db with shopping_carts := ((db.shopping_carts ++ [Membership.mk u pk]).filter (fun p => !decide (p.user = u ∧ p.recipe = pk))) } pk = true := hex
    refine ⟨by rw [e1], ?_, ?_, ?_⟩
    · rw [e1]
      dsimp only
      rw [shoppingCartAction_unfold _ u pk .post hex1,
        manageRelated_post_mem _ _ _ (memberExists_append_self db.shopping_carts u pk)]
    · rw [e1]
      dsimp only
      rw [e2]
    · rw [e1]
      dsimp only
      rw [e2]
      dsimp only
      rw [shoppingCartAction_unfold _ u pk .delete hex2,
        manageRelated_delete_notmem _ _ _ (memberExists_filter_self _ u pk)]

/-- Witness for C2 at a concrete state: recipe 1 exists, alice's favorites
are empty, so the first POST answers 201. -/
theorem C2_witness :
    recipeExists dbFlour 1 = true
    ∧ (memberExists dbFlour.favorites 1 1 = false →
        (favoriteAction dbFlour 1 1 .post).1 = 201
        ∧ (favoriteAction (favoriteAction dbFlour 1 1 .post).2 1 1 .post).1 = 400
        ∧ (favoriteAction (favoriteAction dbFlour 1 1 .post).2 1 1 .delete).1 = 204
        ∧ (favoriteAction
            (favoriteAction (favoriteAction dbFlour 1 1 .post).2 1 1 .delete).2 1 1
            .delete).1 = 400) :=
  ⟨by decide,
    (C2_toggle_conflict_semantics dbFlour 1 1 (by decide)).2.2.2.2.2.2.2.2.2.2.2.2.1⟩

/-- Claim C1: each entry of the aggregated ingredient list stands for one
distinct `(name, measurement_unit)` pair (no pair twice), a pair appears
exactly when some line item of a cart recipe carries it, its value is the sum
of the amounts of all such line items, and the whole aggregation is unchanged
when the cart rows are stored in any other order. -/
theorem C1_aggregation_sums_distinct_pairs (db : DB) (u : Nat)
    (carts' : List Membership) (hperm : db.shopping_carts.Perm carts') :
    ((aggregatedFor db u).map Prod.fst).Nodup
    ∧ (∀ k : String × String,
        k ∈ (aggregatedFor db u).map Prod.fst
          ↔ ∃ ri ∈ db.recipeingredients,
              inCart db.shopping_carts u ri.recipe = true
                ∧ ingKey db.ingredients ri.ingredient = some k)
    ∧ (∀ e ∈ aggregatedFor db u,
        e.2 = ((db.recipeingredients.filter fun ri =>
                  inCart db.shopping_carts u ri.recipe
                    && decide (ingKey db.ingredients ri.ingredient = some e.1)).map
                RecipeIngredientRow.amount).sum)
    ∧ aggregatedFor { db with shopping_carts := carts' } u = aggregatedFor db u := by
  refine ⟨aggregateRows_keys_nodup _, ?_, ?_, ?_⟩
  · intro k
    rw [show (aggregatedFor db u).map Prod.fst
        = (aggregateRows (cartRows db u)).map Prod.fst from rfl,
      aggregateRows_mem_keys, cartRows_mem_keys]
  · intro e he
    rw [aggregateRows_val (cartRows db u) e he, sumAmounts_cartRows]
  · exact aggregatedFor_rowPerm db u hperm (List.Perm.refl _)

/-- Witness for C1 at the flour example: the two cart recipes needing
100 g and 50 g of flour yield the single aggregated entry
`(("flour", "g"), 150)`, rendered as "1. Flour (g) — 150", however the cart
rows are ordered. -/
theorem C1_witness :
    dbFlour.shopping_carts.Perm [Membership.mk 1 2, Membership.mk 1 1]
    ∧ aggregatedFor { dbFlour with shopping_carts := [Membership.mk 1 2, Membership.mk 1 1] } 1
        = aggregatedFor dbFlour 1
    ∧ aggregatedFor dbFlour 1 = [(("flour", "g"), 150)]
    ∧ ingredientLines dbFlour 1 = ["\nПродукты для покупки:", "1. Flour (g) — 150"] :=
  ⟨by decide,
    (C1_aggregation_sums_distinct_pairs dbFlour 1 [Membership.mk 1 2, Membership.mk 1 1]
      (by decide)).2.2.2,
    by decide, by decide⟩

/-- Claim C7 counterexample: the report embeds the formatted current time
(`timezone.now()`), so two downloads against the identical stored state but
rendered at different times differ — the report is not a function of the
stored data alone. -/
theorem C7_counterexample :
    generate_shopping_list_text dbEmpty ⟨1, "alice"⟩ "01.01.2025 00:00"
      ≠ generate_shopping_list_text dbEmpty ⟨1, "alice"⟩ "02.01.2025 00:00" := by
  decide

/-- Claim C7 as amended: the report is a deterministic function of the stored
row sets and the formatted current time — with the timestamp fixed, permuting
the storage order of the shopping-cart and line-item tables leaves the
rendered text byte-identical. -/
theorem C7_amended_deterministic (db : DB) (u : UserRow) (now : String)
    (carts' : List Membership) (ri' : List RecipeIngredientRow)
    (hc : db.shopping_carts.Perm carts') (hr : db.recipeingredients.Perm ri') :
    generate_shopping_list_text
        { db with shopping_carts := carts', recipeingredients := ri' } u now
      = generate_shopping_list_text db u now :=
  generate_rowPerm db u now hc hr

/-- Witness for C7's amended form at a concrete state: swapping both the cart
rows and the line-item rows leaves the rendered report unchanged. -/
theorem C7_witness :
    (dbFlour.shopping_carts.Perm [Membership.mk 1 2, Membership.mk 1 1]
      ∧ dbFlour.recipeingredients.Perm [⟨2, 1, 50⟩, ⟨1, 1, 100⟩])
    ∧ generate_shopping_list_text
        { dbFlour with shopping_carts := [Membership.mk 1 2, Membership.mk 1 1],
                       recipeingredients := [⟨2, 1, 50⟩, ⟨1, 1, 100⟩] }
        ⟨1, "alice"⟩ "01.01.2025 00:00"
      = generate_shopping_list_text dbFlour ⟨1, "alice"⟩ "01.01.2025 00:00" :=
  ⟨⟨by decide, by decide⟩,
    C7_amended_deterministic dbFlour ⟨1, "alice"⟩ "01.01.2025 00:00"
      [Membership.mk 1 2, Membership.mk 1 1] [⟨2, 1, 50⟩, ⟨1, 1, 100⟩]
      (by decide) (by decide)⟩

/-- Claim C8 counterexample: with ingredients named "a" and "B" (same unit)
in the cart, the code's `order_by('ingredient__name')` puts "B" (code point
66) before "a" (code point 97); a case-normalized ascending order would put
"a" first, so the rendered group order is not case-normalized. -/
theorem C8_counterexample :
    (aggregatedFor dbCase 7).map (fun e => e.1.1) = ["B", "a"]
    ∧ ¬ List.Pairwise specCaseNormalizedLe
        ((aggregatedFor dbCase 7).map fun e => e.1.1) := by
  constructor
  · decide
  · decide

/-- Claim C8 as amended: the groups are ordered by ingredient name ascending
in raw code-point order (case-sensitive; in this model ties between equal
names are broken by unit), and the `i`-th group (counting from 0) is rendered
as the numbered line `ingredientLine (i+1)` — i.e.
`"{index}. {Name.capitalize()} ({unit}) — {summed amount}"` with indices from
1, after the section title. -/
theorem C8_amended_raw_name_order (db : DB) (u : Nat) (i : Nat)
    (hi : i < (aggregatedFor db u).length) :
    List.Pairwise strLe ((aggregatedFor db u).map fun e => e.1.1)
    ∧ (ingredientLines db u).getD (i + 1) ""
        = ingredientLine (i + 1) ((aggregatedFor db u).getD i (("", ""), 0)) := by
  constructor
  · have hs : List.Pairwise keyLe ((aggregateRows (cartRows db u)).map Prod.fst) := by
      rw [aggregateRows_map_fst]
      exact List.sorted_insertionSort keyLe _
    have hmap : (aggregatedFor db u).map (fun e => e.1.1)
        = ((aggregateRows (cartRows db u)).map Prod.fst).map (fun k => k.1) := by
      rw [List.map_map]
      rfl
    rw [hmap]
    refine hs.map (fun k => k.1) ?_
    intro a b hab
    rcases hab with hlt | ⟨heq, _⟩
    · exact le_of_lt hlt
    · show strLe a.1 b.1
      rw [heq]
      exact le_refl _
  · have hlen : i < ((aggregatedFor db u).enum.map
        fun p => ingredientLine (p.1 + 1) p.2).length := by
      simpa using hi
    have hlen2 : i < (aggregatedFor db u).enum.length := by
      simpa using hi
    unfold ingredientLines
    rw [List.getD_cons_succ, List.getD_eq_getElem?_getD, List.getElem?_eq_getElem hlen,
      Option.getD_some, List.getElem_map, List.getElem_enum,
      List.getD_eq_getElem?_getD, List.getElem?_eq_getElem hi, Option.getD_some]

/-- Witness for C8's amended form at the flour example: the single group is
rendered as "1. Flour (g) — 150". -/
theorem C8_witness :
    0 < (aggregatedFor dbFlour 1).length
    ∧ (List.Pairwise strLe ((aggregatedFor dbFlour 1).map fun e => e.1.1)
        ∧ (ingredientLines dbFlour 1).getD 1 ""
            = ingredientLine 1 ((aggregatedFor dbFlour 1).getD 0 (("", ""), 0))) :=
  ⟨by decide, C8_amended_raw_name_order dbFlour 1 0 (by decide)⟩

/-- Claim C9: under foreign-key integrity of the line items, the report is
exactly the header followed by the explicit empty message — no ingredient
lines, no recipe section — precisely when no line item belongs to a recipe
in the user's cart; in particular it is so whenever the user's cart is
empty. -/
theorem C9_empty_cart_message (db : DB) (u : UserRow) (now : String)
    (hfk : ∀ ri ∈ db.recipeingredients,
      (ingKey db.ingredients ri.ingredient).isSome = true) :
    (generate_shopping_list_text db u now
        = reportHeader u.username now ++ "\nВаш список покупок пуст."
      ↔ ∀ ri ∈ db.recipeingredients, inCart db.shopping_carts u.id ri.recipe = false)
    ∧ ((∀ c ∈ db.shopping_carts, c.user ≠ u.id) →
        generate_shopping_list_text db u now
          = reportHeader u.username now ++ "\nВаш список покупок пуст.") := by
  have hbranch : ∀ _ : cartRows db u.id = [],
      generate_shopping_list_text db u now
        = reportHeader u.username now ++ "\nВаш список покупок пуст." := by
    intro hnil
    have hagg : aggregatedFor db u.id = [] := by
      unfold aggregatedFor
      rw [hnil]
      rfl
    unfold generate_shopping_list_text
    rw [if_pos (by rw [hagg]; rfl)]
  constructor
  · constructor
    · intro heq
      rcases hn : cartRows db u.id with _ | ⟨r, rest⟩
      · exact (cartRows_eq_nil_iff db u.id hfk).mp hn
      · exfalso
        have hne : (aggregatedFor db u.id).isEmpty = false := by
          rw [List.isEmpty_eq_false]
          intro hno
          rw [aggregatedFor, aggregateRows_eq_nil_iff] at hno
          rw [hn] at hno
          exact absurd hno (by simp)
        unfold generate_shopping_list_text at heq
        rw [if_neg (by rw [hne]; simp)] at heq
        exact nonempty_report_ne_empty_form db u now heq
    · intro hall
      exact hbranch ((cartRows_eq_nil_iff db u.id hfk).mpr hall)
  · intro hc
    exact hbranch (noCartRows_of_emptyCart db u.id hc)

/-- Witness for C9 at a concrete state with an empty cart. -/
theorem C9_witness :
    (∀ ri ∈ dbEmpty.recipeingredients,
      (ingKey dbEmpty.ingredients ri.ingredient).isSome = true)
    ∧ ((∀ c ∈ dbEmpty.shopping_carts, c.user ≠ 1) →
        generate_shopping_list_text dbEmpty ⟨1, "alice"⟩ "01.01.2025 00:00"
          = reportHeader "alice" "01.01.2025 00:00" ++ "\nВаш список покупок пуст.") :=
  ⟨by decide, (C9_empty_cart_message dbEmpty ⟨1, "alice"⟩ "01.01.2025 00:00" (by decide)).2⟩

lemma mem_newRIRows {rid : Nat} {l : List IngredientAmount}
    {ri : RecipeIngredientRow} (h : ri ∈ newRIRows rid l) : ri.recipe = rid := by
  simp only [newRIRows, List.mem_map] at h
  obtain ⟨ia, _, rfl⟩ := h
  rfl

lemma recipeCreateAction_invalid (db : DB) (author : Nat) (p : RecipePayload)
    (newId : Nat)
    (h : (∀ l, p.ingredients = some l → ingredientsValid db l = false)
      ∨ (∃ ct, p.cooking_time = some ct ∧ ct < 1)) :
    recipeCreateAction db author p newId = (400, db) := by
  unfold recipeCreateAction
  rcases hI : p.ingredients with _ | ings
  · rfl
  rcases hT : p.tags with _ | tgs
  · rfl
  rcases hN : p.name with _ | nm
  · rfl
  rcases hX : p.text with _ | tx
  · rfl
  rcases hM : p.image with _ | im
  · rfl
  rcases hC : p.cooking_time with _ | ct
  · rfl
  dsimp only
  rcases h with h | ⟨ct2, hct, hlt⟩
  · rw [h ings hI]
    simp
  · have hc2 : ct2 = ct := by
      rw [hC] at hct
      exact (Option.some.inj hct).symm
    subst hc2
    have hd : decide (1 ≤ ct2) = false := by
      simp only [decide_eq_false_iff_not]
      omega
    rw [hd]
    simp

lemma recipeUpdateAction_invalid (db : DB) (rid : Nat) (p : RecipePayload)
    (h : (∀ l, p.ingredients = some l → ingredientsValid db l = false)
      ∨ (∃ ct, p.cooking_time = some ct ∧ ct < 1))
    (hex : recipeExists db rid = true) :
    recipeUpdateAction db rid p = (400, db) := by
  unfold recipeUpdateAction
  rw [if_pos hex]
  rcases hI : p.ingredients with _ | ings
  · rfl
  rcases hT : p.tags with _ | tgs
  · rfl
  dsimp only
  rcases h with h | ⟨ct2, hct, hlt⟩
  · rw [h ings hI]
    simp
  · have hctv : cookingTimeValid p.cooking_time = false := by
      rw [hct]
      unfold cookingTimeValid
      simp only [decide_eq_false_iff_not]
      omega
    rw [hctv]
    simp

/-- Claim C3: a create or update payload with an empty ingredient list, a
duplicated ingredient reference, an amount < 1, a cooking_time < 1, or with
the ingredients field omitted (on PATCH, where `validate` demands it) is
rejected with 400 and the store is left exactly as it was. -/
theorem C3_validation_rejects_bad_payloads (db : DB) (author : Nat)
    (p : RecipePayload) (newId rid : Nat)
    (hbad : p.ingredients = some []
      ∨ (∃ l, p.ingredients = some l ∧ ¬ (l.map IngredientAmount.id).Nodup)
      ∨ (∃ l ia, p.ingredients = some l ∧ ia ∈ l ∧ ia.amount < 1)
      ∨ (∃ ct, p.cooking_time = some ct ∧ ct < 1)
      ∨ p.ingredients = none) :
    recipeCreateAction db author p newId = (400, db)
    ∧ (recipeExists db rid = true → recipeUpdateAction db rid p = (400, db)) := by
  have h : (∀ l, p.ingredients = some l → ingredientsValid db l = false)
      ∨ (∃ ct, p.cooking_time = some ct ∧ ct < 1) := by
    rcases hbad with h | ⟨l0, hl0, hdup⟩ | ⟨l0, ia, hl0, hmem, hlt⟩ | hct | h
    · refine Or.inl fun l hl => ?_
      rw [h] at hl
      have : l = [] := (Option.some.inj hl).symm
      subst this
      exact ingredientsValid_false_of_bad (Or.inl rfl)
    · refine Or.inl fun l hl => ?_
      rw [hl0] at hl
      have : l0 = l := Option.some.inj hl
      subst this
      exact ingredientsValid_false_of_bad (Or.inr (Or.inl hdup))
    · refine Or.inl fun l hl => ?_
      rw [hl0] at hl
      have : l0 = l := Option.some.inj hl
      subst this
      exact ingredientsValid_false_of_bad (Or.inr (Or.inr ⟨ia, hmem, hlt⟩))
    · exact Or.inr hct
    · refine Or.inl fun l hl => ?_
      rw [h] at hl
      exact absurd hl (by simp)
  exact ⟨recipeCreateAction_invalid db author p newId h,
    fun hex => recipeUpdateAction_invalid db rid p h hex⟩

/-- Witness for C3 at a concrete bad payload (empty ingredient list). -/
theorem C3_witness :
    (RecipePayload.mk (some []) (some [1]) (some "n") (some "t") (some "i") (some 5)).ingredients
        = some []
    ∧ recipeCreateAction dbFlour 2
        (RecipePayload.mk (some []) (some [1]) (some "n") (some "t") (some "i") (some 5)) 3
      = (400, dbFlour) :=
  ⟨rfl,
    (C3_validation_rejects_bad_payloads dbFlour 2
      (RecipePayload.mk (some []) (some [1]) (some "n") (some "t") (some "i") (some 5)) 3 1
      (Or.inl rfl)).1⟩

/-- Claim C4: when a create succeeds (201), reading the new recipe's line
items back yields exactly the submitted `(ingredient id, amount)` pairs —
none missing, none duplicated, none added. -/
theorem C4_create_then_read_roundtrip (db : DB) (author : Nat) (p : RecipePayload)
    (newId : Nat) (l : List IngredientAmount)
    (hl : p.ingredients = some l)
    (hfresh : ∀ ri ∈ db.recipeingredients, ri.recipe ≠ newId)
    (hok : (recipeCreateAction db author p newId).1 = 201) :
    readIngredientPairs (recipeCreateAction db author p newId).2 newId
      = l.map (fun ia => (ia.id, ia.amount))
    ∧ ((readIngredientPairs (recipeCreateAction db author p newId).2 newId).map
        Prod.fst).Nodup := by
  unfold recipeCreateAction at hok ⊢
  rw [hl] at hok ⊢
  rcases hT : p.tags with _ | tgs
  · rw [hT] at hok
    exact absurd (show (400 : Nat) = 201 from hok) (by decide)
  rw [hT] at hok
  rcases hN : p.name with _ | nm
  · rw [hN] at hok
    exact absurd (show (400 : Nat) = 201 from hok) (by decide)
  rw [hN] at hok
  rcases hX : p.text with _ | tx
  · rw [hX] at hok
    exact absurd (show (400 : Nat) = 201 from hok) (by decide)
  rw [hX] at hok
  rcases hM : p.image with _ | im
  · rw [hM] at hok
    exact absurd (show (400 : Nat) = 201 from hok) (by decide)
  rw [hM] at hok
  rcases hC : p.cooking_time with _ | ct
  · rw [hC] at hok
    exact absurd (show (400 : Nat) = 201 from hok) (by decide)
  rw [hC] at hok
  dsimp only at hok ⊢
  by_cases hv : (ingredientsValid db l && tagsValid db tgs && decide (1 ≤ ct)) = true
  · rw [if_pos hv] at hok ⊢
    dsimp only
    have hold : db.recipeingredients.filter (fun ri => decide (ri.recipe = newId))
        = [] := by
      refine List.filter_eq_nil_iff.mpr fun ri hri => ?_
      simp only [decide_eq_true_eq]
      exact hfresh ri hri
    have hnew : (newRIRows newId l).filter (fun ri => decide (ri.recipe = newId))
        = newRIRows newId l := by
      refine List.filter_eq_self.mpr fun ri hri => ?_
      simp [mem_newRIRows hri]
    have hfil : (db.recipeingredients ++ newRIRows newId l).filter
        (fun ri => decide (ri.recipe = newId)) = newRIRows newId l := by
      rw [List.filter_append, hold, hnew, List.nil_append]
    constructor
    · unfold readIngredientPairs
      dsimp only
      rw [hfil]
      unfold newRIRows
      rw [List.map_map]
      rfl
    · unfold readIngredientPairs
      dsimp only
      rw [hfil]
      unfold newRIRows
      rw [List.map_map, List.map_map]
      show (l.map IngredientAmount.id).Nodup
      have hvi : ingredientsValid db l = true := by
        rw [Bool.and_eq_true, Bool.and_eq_true] at hv
        exact hv.1.1
      exact (ingredientsValid_spec hvi).2.1
  · rw [if_neg hv] at hok
    exact absurd (show (400 : Nat) = 201 from hok) (by decide)

/-- Witness for C4 at a concrete payload: creating a recipe with flour 7 on a
fresh id and reading it back returns exactly `[(1, 7)]`. -/
theorem C4_witness :
    ((RecipePayload.mk (some [⟨1, 7⟩]) (some [1]) (some "n") (some "t") (some "i")
        (some 5)).ingredients = some [⟨1, 7⟩]
      ∧ (∀ ri ∈ dbFlour.recipeingredients, ri.recipe ≠ 9)
      ∧ (recipeCreateAction dbFlour 2
          (RecipePayload.mk (some [⟨1, 7⟩]) (some [1]) (some "n") (some "t") (some "i")
            (some 5)) 9).1 = 201)
    ∧ (readIngredientPairs
        (recipeCreateAction dbFlour 2
          (RecipePayload.mk (some [⟨1, 7⟩]) (some [1]) (some "n") (some "t") (some "i")
            (some 5)) 9).2 9
        = ([⟨1, 7⟩] : List IngredientAmount).map (fun ia => (ia.id, ia.amount))
      ∧ ((readIngredientPairs
          (recipeCreateAction dbFlour 2
            (RecipePayload.mk (some [⟨1, 7⟩]) (some [1]) (some "n") (some "t") (some "i")
              (some 5)) 9).2 9).map Prod.fst).Nodup) :=
  ⟨⟨rfl, by decide, by decide⟩,
    C4_create_then_read_roundtrip dbFlour 2
      (RecipePayload.mk (some [⟨1, 7⟩]) (some [1]) (some "n") (some "t") (some "i")
        (some 5)) 9 [⟨1, 7⟩] rfl (by decide) (by decide)⟩

/-- Claim C5: a PATCH that supplies ingredient list L and succeeds (200)
leaves the recipe's line items exactly the rows built from L — all previous
line items of that recipe are gone, every other recipe's line items are
untouched, and L is non-empty (so the recipe never ends with zero lines) —
while any failing PATCH leaves the store exactly as it was (the update is one
atomic transaction). -/
theorem C5_update_replaces_line_items (db : DB) (rid : Nat) (p : RecipePayload)
    (l : List IngredientAmount) (hl : p.ingredients = some l) :
    ((recipeUpdateAction db rid p).1 = 200 →
        ((recipeUpdateAction db rid p).2.recipeingredients.filter
            fun ri => decide (ri.recipe = rid)) = newRIRows rid l
        ∧ ((recipeUpdateAction db rid p).2.recipeingredients.filter
            fun ri => !decide (ri.recipe = rid))
          = (db.recipeingredients.filter fun ri => !decide (ri.recipe = rid))
        ∧ l ≠ [])
    ∧ ((recipeUpdateAction db rid p).1 ≠ 200 → (recipeUpdateAction db rid p).2 = db) := by
  unfold recipeUpdateAction
  by_cases hex : recipeExists db rid = true
  · rw [if_pos hex, hl]
    rcases hT : p.tags with _ | tgs
    · exact ⟨fun h => absurd (show (400 : Nat) = 200 from h) (by decide), fun _ => rfl⟩
    dsimp only
    by_cases hv : (ingredientsValid db l && tagsValid db tgs
        && cookingTimeValid p.cooking_time) = true
    · rw [if_pos hv]
      dsimp only
      have hvi : ingredientsValid db l = true := by
        rw [Bool.and_eq_true, Bool.and_eq_true] at hv
        exact hv.1.1
      have hkept : (db.recipeingredients.filter
            (fun ri => !decide (ri.recipe = rid))).filter
            (fun ri => decide (ri.recipe = rid)) = [] := by
        refine List.filter_eq_nil_iff.mpr fun ri hri => ?_
        rw [List.mem_filter] at hri
        have := hri.2
        simp only [Bool.not_eq_eq_eq_not, Bool.not_true, decide_eq_false_iff_not] at this
        simp only [decide_eq_true_eq]
        exact this
      have hnewkeep : (newRIRows rid l).filter (fun ri => decide (ri.recipe = rid))
          = newRIRows rid l := by
        refine List.filter_eq_self.mpr fun ri hri => ?_
        simp [mem_newRIRows hri]
      have hidem : (db.recipeingredients.filter
            (fun ri => !decide (ri.recipe = rid))).filter
            (fun ri => !decide (ri.recipe = rid))
          = db.recipeingredients.filter (fun ri => !decide (ri.recipe = rid)) := by
        refine List.filter_eq_self.mpr fun ri hri => ?_
        rw [List.mem_filter] at hri
        exact hri.2
      have hnewdrop : (newRIRows rid l).filter (fun ri => !decide (ri.recipe = rid))
          = [] := by
        refine List.filter_eq_nil_iff.mpr fun ri hri => ?_
        simp [mem_newRIRows hri]
      refine ⟨fun _ => ⟨?_, ?_, (ingredientsValid_spec hvi).1⟩,
        fun h => absurd rfl h⟩
      · rw [List.filter_append, hkept, hnewkeep, List.nil_append]
      · rw [List.filter_append, hidem, hnewdrop, List.append_nil]
    · rw [if_neg hv]
      exact ⟨fun h => absurd (show (400 : Nat) = 200 from h) (by decide), fun _ => rfl⟩
  · rw [if_neg hex]
    exact ⟨fun h => absurd (show (404 : Nat) = 200 from h) (by decide), fun _ => rfl⟩

/-- Witness for C5 at a concrete PATCH: replacing recipe 1's line items with
flour 30 yields exactly that row and leaves recipe 2's row untouched. -/
theorem C5_witness :
    (RecipePayload.mk (some [⟨1, 30⟩]) (some [1]) none none none none).ingredients
        = some [⟨1, 30⟩]
    ∧ ((recipeUpdateAction dbFlour 1
          (RecipePayload.mk (some [⟨1, 30⟩]) (some [1]) none none none none)).1 = 200 →
        ((recipeUpdateAction dbFlour 1
            (RecipePayload.mk (some [⟨1, 30⟩]) (some [1]) none none none none)).2.recipeingredients.filter
            fun ri => decide (ri.recipe = 1)) = newRIRows 1 [⟨1, 30⟩]
        ∧ ((recipeUpdateAction dbFlour 1
            (RecipePayload.mk (some [⟨1, 30⟩]) (some [1]) none none none none)).2.recipeingredients.filter
            fun ri => !decide (ri.recipe = 1))
          = (dbFlour.recipeingredients.filter fun ri => !decide (ri.recipe = 1))
        ∧ ([⟨1, 30⟩] : List IngredientAmount) ≠ []) :=
  ⟨rfl,
    (C5_update_replaces_line_items dbFlour 1
      (RecipePayload.mk (some [⟨1, 30⟩]) (some [1]) none none none none) [⟨1, 30⟩] rfl).1⟩

end Foodgram
